import Mathlib

/-!
# Verification of `scripts/fetch_strava.py`

A shallow embedding of the Strava activity ingestion script.  Pandas /
GeoPandas data frames are modelled as lists of rows together with
column-presence flags for the columns the script inspects (`id`, `date`).
Machine-level details that the script never relies on (floating point
coordinates) are modelled exactly: polyline coordinates are kept as the
integers scaled by 1e5 that the polyline wire format itself carries.
-/

namespace Strava

/-- A data-frame row.  `id` models the `id` column value, `date` models the
value of the derived `date` column after `pd.to_datetime(..., utc=True,
errors="coerce")`: `none` is `NaT` (unparsable), `some e` is the epoch-seconds
value `int(ts.timestamp())` of the parsed date.  `data` carries all remaining
field values opaquely, so that "field values equal" is row equality. -/
structure Row (α : Type) where
  id : Int
  date : Option Int
  data : α
deriving DecidableEq

/-- A (Geo)DataFrame: the rows plus presence flags for the two columns the
script branches on (`"id" in existing.columns`, `"date" in existing.columns`). -/
structure Frame (α : Type) where
  hasId : Bool
  hasDate : Bool
  rows : List (Row α)
deriving DecidableEq

/-- `gpd.GeoDataFrame(columns=["id"], geometry=[], crs="EPSG:4326")`:
the empty frame with an `id` column and no `date` column. -/
def emptyFrame : Frame α := ⟨true, false, []⟩

/-- `load_existing_geojson`: the on-disk state is `none` when the path does
not exist, `some none` when `gpd.read_file` raises (unreadable / malformed),
and `some (some g)` when the file reads as frame `g`.  The first two cases
fall through to the empty frame. -/
def load_existing_geojson : Option (Option (Frame α)) → Frame α
  | some (some g) => g
  | some none => emptyFrame
  | none => emptyFrame

/-- `max` over an `Int` list, skipping nothing (the `NaT` entries were already
removed by `filterMap`); `none` on the empty list.  Models
`DatetimeIndex.max()` with its default `skipna=True`. -/
def listMax (l : List Int) : Option Int :=
  l.foldl (fun acc x => match acc with
    | none => some x
    | some m => some (max m x)) none

/-- The `after_ts` computation of `__main__` (lines 133–146): `None` when the
existing frame is empty or has no `date` column or all dates coerce to `NaT`;
otherwise the maximum date as epoch seconds minus one day. -/
def afterTs (f : Frame α) : Option Int :=
  if f.rows.isEmpty then none
  else if f.hasDate then
    match listMax (f.rows.filterMap Row.date) with
    | some m => some (m - 24 * 3600)
    | none => none
  else none

/-- `combined.drop_duplicates(subset=["id"], keep="last")`: a row is kept iff
no later row carries the same id; kept rows stay in order. -/
def dropDupLast : List (Row α) → List (Row α)
  | [] => []
  | r :: rest =>
    if rest.any (fun s => s.id == r.id) then dropDupLast rest
    else r :: dropDupLast rest

/-- The merge block of `__main__` (lines 170–179): when the existing frame is
non-empty and has an `id` column, concatenate and deduplicate keeping the
last occurrence; otherwise the combined frame is just the newly fetched one. -/
def mergeBlock (existing newGdf : Frame α) : Frame α :=
  if existing.rows.isEmpty then newGdf
  else if existing.hasId then
    ⟨true, existing.hasDate || newGdf.hasDate,
      dropDupLast (existing.rows ++ newGdf.rows)⟩
  else newGdf

/-- The pagination loop of `__main__` (lines 151–162), driven by the list of
page responses the API would return for pages 1, 2, …: an empty page stops
the loop before appending; a non-empty page is appended and the loop stops
iff the page is shorter than `perPage`. -/
def fetchLoop (perPage : Nat) : List (List α) → List α
  | [] => []
  | items :: rest =>
    if items.isEmpty then []
    else items ++ (if items.length < perPage then [] else fetchLoop perPage rest)

/-! ## The polyline wire format (`polyline` library, 5-digit precision)

Coordinates are modelled as the scaled integers `round(coord * 1e5)` that the
format itself transmits; "up to floating-point rounding at 5-digit precision"
is exactly the identity on these integers. -/

/-- Zig-zag step of the encoder: `value = delta << 1`, complemented when the
delta is negative (`~(delta << 1)` in two's complement). -/
def zigzag (d : Int) : Nat :=
  if d < 0 then 2 * d.natAbs - 1 else 2 * d.toNat

/-- Zig-zag step of the decoder: `~(r >> 1)` when the low bit is set,
`r >> 1` otherwise. -/
def unzigzag (r : Nat) : Int :=
  if r % 2 = 1 then -(((r / 2 : Nat) : Int) + 1) else ((r / 2 : Nat) : Int)

/-- Emission of the 5-bit chunks of one zig-zagged value, low chunk first;
every chunk but the last carries the continuation bit `0x20`.  The fuel
argument makes the `value >>= 5` loop structural; `chunkEmit` instantiates it
so it never runs out. -/
def chunkEmitF : Nat → Nat → List Nat
  | 0, v => [v % 32]
  | fuel + 1, v => if v < 32 then [v] else (32 + v % 32) :: chunkEmitF fuel (v / 32)

/-- The chunk list of one zig-zagged value. -/
def chunkEmit (v : Nat) : List Nat := chunkEmitF v v

/-- A chunk becomes the character `chr(chunk + 63)`. -/
def chunkToChar (k : Nat) : Char := Char.ofNat (k + 63)

/-- The decoder reads a character back as `ord(c) - 63`. -/
def charToChunk (c : Char) : Nat := c.toNat - 63

/-- Encoding of one signed delta as characters. -/
def encodeSigned (d : Int) : List Char := (chunkEmit (zigzag d)).map chunkToChar

/-- `polyline.encode` relative to the previous point `(plat, plon)`:
each point contributes the encodings of its latitude then longitude deltas. -/
def polyEncodeRel : Int → Int → List (Int × Int) → List Char
  | _, _, [] => []
  | plat, plon, (lat, lon) :: rest =>
    encodeSigned (lat - plat) ++ encodeSigned (lon - plon) ++ polyEncodeRel lat lon rest

/-- `polyline.encode` of a list of (lat, lon) points, as scaled integers. -/
def polyEncode (pts : List (Int × Int)) : List Char := polyEncodeRel 0 0 pts

/-- Reading one zig-zagged value off the character stream:
accumulate `(b & 0x1f) << shift` while `b >= 0x20`; `none` when the stream
ends inside a value (the library raises there). -/
def decodeUnsigned : List Char → Option (Nat × List Char)
  | [] => none
  | c :: rest =>
    let b := charToChunk c
    if b < 32 then some (b, rest)
    else
      match decodeUnsigned rest with
      | none => none
      | some (v, r) => some (b % 32 + 32 * v, r)

/-- `polyline.decode`, fuelled by the stream length (each point consumes at
least two characters, so the fuel never runs out on a stream that parses):
read a latitude delta then a longitude delta, add them to the running point,
repeat until the stream is empty. -/
def polyDecodeF : Nat → Int → Int → List Char → Option (List (Int × Int))
  | _, _, _, [] => some []
  | 0, _, _, _ :: _ => none
  | fuel + 1, lat, lon, l =>
    match decodeUnsigned l with
    | none => none
    | some (rlat, r1) =>
      match decodeUnsigned r1 with
      | none => none
      | some (rlon, r2) =>
        let lat2 := lat + unzigzag rlat
        let lon2 := lon + unzigzag rlon
        match polyDecodeF fuel lat2 lon2 r2 with
        | none => none
        | some ps => some ((lat2, lon2) :: ps)

/-- `polyline.decode`: the list of (lat, lon) points, as scaled integers;
`none` when the string is not a well-formed polyline. -/
def polyDecode (s : List Char) : Option (List (Int × Int)) :=
  polyDecodeF s.length 0 0 s

/-! ## Geometry decoding and the geo-data-frame build -/

/-- The value `decode_summary_polyline` sees at `activity.get("map", {})`
for one row, after pandas has assembled the frame: `colAbsent` when no
fetched row had a `map` key (the column does not exist, so `Series.get`
returns the `{}` default); `nan` when the column exists but this row lacked
the key (pandas fills `NaN`, a float); `dict p` when the row carried a map
dict whose `summary_polyline` entry is `p` (`none` = key absent). -/
inductive MapCell where
  | colAbsent : MapCell
  | nan : MapCell
  | dict : Option (List Char) → MapCell
deriving DecidableEq

/-- `decode_summary_polyline` on one row.  `Except.error` models an uncaught
Python exception: `NaN.get(...)` raises `AttributeError`, and
`polyline.decode` raises on a malformed string.  `Except.ok none` is the
`return None` paths (`geom` falsy, or fewer than 2 decoded points);
`Except.ok (some pts)` is the `LineString` over the (lon, lat)-swapped
points. -/
def decode_summary_polyline (cell : MapCell) : Except String (Option (List (Int × Int))) :=
  match cell with
  | MapCell.colAbsent => Except.ok none
  | MapCell.nan => Except.error "AttributeError: float object has no attribute get"
  | MapCell.dict p =>
    match p with
    | none => Except.ok none
    | some s =>
      if s.isEmpty then Except.ok none
      else
        match polyDecode s with
        | none => Except.error "polyline.decode raised on malformed input"
        | some coords =>
          if coords.length < 2 then Except.ok none
          else Except.ok (some (coords.map (fun q => (q.2, q.1))))

/-- A raw activity dict as fetched from the API, restricted to the parts the
claims inspect: the outer `Option` on `map_` is presence of the `"map"` key
in the dict, the inner `Option` is presence of the `"summary_polyline"` key
(with `some []` an empty polyline string). -/
structure RawActivity where
  id : Int
  start_date : Option String
  map_ : Option (Option (List Char))
deriving DecidableEq

/-- What `activity.get("map", {})` yields for row `a` once pandas has built
the frame: the `{}` default only fires when the whole column is absent;
otherwise a row without the key holds `NaN`. -/
def mapCellOf (colPresent : Bool) (a : RawActivity) : MapCell :=
  if colPresent then
    match a.map_ with
    | some p => MapCell.dict p
    | none => MapCell.nan
  else MapCell.colAbsent

/-- One digit character as a value. -/
def digitVal (c : Char) : Nat := c.toNat - 48

/-- Models `pd.to_datetime(s, errors="coerce", utc=True)` restricted to the
ISO-8601 shapes the script ever stores or receives: a `YYYY-MM-DD` prefix,
optionally followed by a `T...` or space-separated time part.  Anything else
coerces to `NaT` (`none`). -/
def parseUTCDate (s : String) : Option (Nat × Nat × Nat) :=
  match s.data with
  | y1 :: y2 :: y3 :: y4 :: '-' :: m1 :: m2 :: '-' :: d1 :: d2 :: rest =>
    if y1.isDigit && y2.isDigit && y3.isDigit && y4.isDigit
        && m1.isDigit && m2.isDigit && d1.isDigit && d2.isDigit
        && (rest.isEmpty || rest.headD ' ' == 'T' || rest.headD ' ' == ' ') then
      let y := 1000 * digitVal y1 + 100 * digitVal y2 + 10 * digitVal y3 + digitVal y4
      let mo := 10 * digitVal m1 + digitVal m2
      let d := 10 * digitVal d1 + digitVal d2
      if 1 ≤ mo && mo ≤ 12 && 1 ≤ d && d ≤ 31 then some (y, mo, d) else none
    else none
  | _ => none

/-- A number as exactly four decimal digits. -/
def pad4 (n : Nat) : String := (toString (10000 + n % 10000)).drop 1

/-- A number as exactly two decimal digits. -/
def pad2 (n : Nat) : String := (toString (100 + n % 100)).drop 1

/-- `str(datetime.date(y, mo, d))`. -/
def fmtDate (y mo d : Nat) : String := pad4 y ++ "-" ++ pad2 mo ++ "-" ++ pad2 d

/-- The derived columns of one row after lines 97–101 of `tidy_columns`. -/
structure TidyDates where
  date : Option String
  year : Option Int
  month : Option Int
deriving DecidableEq

/-- Lines 97–101 of `tidy_columns` on one row's `start_date` cell:
`dt.dt.date.astype(str)` maps a parsed date to its ISO string and `NaT` to
the literal string `"NaT"` (so the `date` cell is never null), while
`dt.dt.year` / `dt.dt.month` keep `NaT` as null. -/
def expandDates (startDate : Option String) : TidyDates :=
  match startDate.bind parseUTCDate with
  | none => ⟨some "NaT", none, none⟩
  | some (y, mo, d) => ⟨some (fmtDate y mo d), some (y : Int), some (mo : Int)⟩

/-- A row of the geometry-bearing frame `build_geodataframe` returns: the
tidied columns (the raw `map` column is dropped at the end of the build) and
a definite line geometry in (lon, lat) order. -/
structure GeoRow where
  id : Int
  start_date : Option String
  date : Option String
  year : Option Int
  month : Option Int
  geometry : List (Int × Int)
deriving DecidableEq

/-- The output row for an activity whose polyline decoded. -/
def buildGeoRow (a : RawActivity) (pts : List (Int × Int)) : GeoRow :=
  let td := expandDates a.start_date
  ⟨a.id, a.start_date, td.date, td.year, td.month, pts⟩

/-- Shapely / GEOS validity of a line: the only way a `LineString` is
invalid is having too few points. -/
def lineIsValid (pts : List (Int × Int)) : Bool := decide (2 ≤ pts.length)

/-- The row loop inside `build_geodataframe`: decode each row's geometry in
order (the first uncaught exception aborts the whole build, like
`df.apply`), then keep only rows whose geometry is non-null and valid
(`gdf.geometry.notnull() & gdf.geometry.is_valid`). -/
def buildRows (colPresent : Bool) : List RawActivity → Except String (List GeoRow)
  | [] => Except.ok []
  | a :: rest =>
    match decode_summary_polyline (mapCellOf colPresent a) with
    | Except.error e => Except.error e
    | Except.ok g =>
      match buildRows colPresent rest with
      | Except.error e => Except.error e
      | Except.ok gs =>
        match g with
        | none => Except.ok gs
        | some pts => if lineIsValid pts then Except.ok (buildGeoRow a pts :: gs) else Except.ok gs

/-- `build_geodataframe`: tidy the columns, decode each summary polyline,
filter to rows with non-null valid geometry, drop the raw `map` column. -/
def build_geodataframe (rows : List RawActivity) : Except String (List GeoRow) :=
  buildRows (rows.any (fun a => a.map_.isSome)) rows

/-! ## The write block -/

/-- An observable effect of the write block: a (re)write of an output file,
or a console message. -/
inductive Effect where
  | writeFile : String → Effect
  | info : String → Effect
deriving DecidableEq

/-- `GEOJSON_PATH`. -/
def GEOJSON_PATH : String := "docs/data/activities.geojson"

/-- `os.path.join(SHAPE_DIR, SHAPE_BASENAME + ".shp")`. -/
def SHP_PATH : String := "docs/data/shapefile/activities.shp"

/-- The write block of `__main__` (lines 182–202): a non-empty combined
frame is written to the GeoJSON path and (after a pure column rename no
claim inspects) to the shapefile path, each with a confirmation message; an
empty combined frame produces only the no-op message and touches no file. -/
def writeBlock (combined : Frame α) : List Effect :=
  if combined.rows.isEmpty then
    [Effect.info "[info] nothing to update"]
  else
    [Effect.writeFile GEOJSON_PATH,
     Effect.info "[ok] wrote docs/data/activities.geojson",
     Effect.writeFile SHP_PATH,
     Effect.info "[ok] wrote docs/data/shapefile/activities.shp (and companion files)"]

/-! ## Lemmas: the polyline codec round-trips -/

/-- Characters produced by the encoder read back as the chunk they encode. -/
theorem charToChunk_chunkToChar_all : ∀ k, k < 64 → charToChunk (chunkToChar k) = k := by
  decide

/-- The decoder's sign step inverts the encoder's. -/
theorem unzigzag_zigzag (d : Int) : unzigzag (zigzag d) = d := by
  unfold zigzag unzigzag
  split_ifs <;> omega

/-- The chunk list of a value is never empty. -/
theorem chunkEmitF_ne_nil (fuel v : Nat) : chunkEmitF fuel v ≠ [] := by
  cases fuel with
  | zero => simp [chunkEmitF]
  | succ fuel => unfold chunkEmitF; split_ifs <;> simp

/-- Reading one value off the stream undoes its chunk emission, leaving the
rest of the stream intact. -/
theorem decodeUnsigned_chunkEmitF :
    ∀ (fuel v : Nat), v ≤ fuel → ∀ rest : List Char,
      decodeUnsigned ((chunkEmitF fuel v).map chunkToChar ++ rest) = some (v, rest) := by
  intro fuel
  induction fuel with
  | zero =>
    intro v hv rest
    have hv0 : v = 0 := by omega
    subst hv0
    simp [chunkEmitF, decodeUnsigned, charToChunk_chunkToChar_all 0 (by omega)]
  | succ fuel ih =>
    intro v hv rest
    by_cases h : v < 32
    · simp [chunkEmitF, h, decodeUnsigned, charToChunk_chunkToChar_all v (by omega)]
    · have hb := charToChunk_chunkToChar_all (32 + v % 32) (by omega)
      have hb32 : ¬ (32 + v % 32 < 32) := by omega
      have hdiv : v / 32 ≤ fuel := by omega
      simp [chunkEmitF, h, decodeUnsigned, hb, hb32, ih (v / 32) hdiv rest]
      omega

/-- The character encoding of a signed delta is never empty. -/
theorem encodeSigned_ne_nil (d : Int) : encodeSigned d ≠ [] := by
  simp [encodeSigned, chunkEmit]
  exact chunkEmitF_ne_nil _ _

/-- Reading one value off the stream undoes `encodeSigned`. -/
theorem decodeUnsigned_encodeSigned (d : Int) (rest : List Char) :
    decodeUnsigned (encodeSigned d ++ rest) = some (zigzag d, rest) := by
  simpa [encodeSigned, chunkEmit] using
    decodeUnsigned_chunkEmitF (zigzag d) (zigzag d) le_rfl rest

/-- Unfolding of the fuelled decoder on a non-empty stream. -/
theorem polyDecodeF_succ (fuel : Nat) (lat lon : Int) (l : List Char) (hne : l ≠ []) :
    polyDecodeF (fuel + 1) lat lon l =
      match decodeUnsigned l with
      | none => none
      | some (rlat, r1) =>
        match decodeUnsigned r1 with
        | none => none
        | some (rlon, r2) =>
          match polyDecodeF fuel (lat + unzigzag rlat) (lon + unzigzag rlon) r2 with
          | none => none
          | some ps => some ((lat + unzigzag rlat, lon + unzigzag rlon) :: ps) := by
  cases l with
  | nil => exact absurd rfl hne
  | cons c cs => rfl

/-- The fuelled decoder undoes the relative encoder, from any starting
point, given at least one unit of fuel per point. -/
theorem polyDecodeF_polyEncodeRel :
    ∀ (pts : List (Int × Int)) (fuel : Nat) (plat plon : Int), pts.length ≤ fuel →
      polyDecodeF fuel plat plon (polyEncodeRel plat plon pts) = some pts := by
  intro pts
  induction pts with
  | nil => intro fuel plat plon _; cases fuel <;> simp [polyEncodeRel, polyDecodeF]
  | cons q rest ih =>
    intro fuel plat plon h
    obtain ⟨lat, lon⟩ := q
    cases fuel with
    | zero => simp at h
    | succ fuel =>
      have h1 : polyEncodeRel plat plon ((lat, lon) :: rest)
          = encodeSigned (lat - plat) ++ (encodeSigned (lon - plon) ++ polyEncodeRel lat lon rest) := by
        simp [polyEncodeRel]
      have hne : polyEncodeRel plat plon ((lat, lon) :: rest) ≠ [] := by
        rw [h1]
        simp [encodeSigned_ne_nil]
      rw [polyDecodeF_succ fuel plat plon _ hne, h1]
      simp only [decodeUnsigned_encodeSigned, unzigzag_zigzag]
      have e1 : plat + (lat - plat) = lat := by ring
      have e2 : plon + (lon - plon) = lon := by ring
      rw [e1, e2, ih fuel lat lon (by simpa using h)]

/-- The encoding of a point list is at least as long as the list. -/
theorem le_length_polyEncodeRel :
    ∀ (pts : List (Int × Int)) (plat plon : Int),
      pts.length ≤ (polyEncodeRel plat plon pts).length := by
  intro pts
  induction pts with
  | nil => intro plat plon; simp [polyEncodeRel]
  | cons q rest ih =>
    intro plat plon
    obtain ⟨lat, lon⟩ := q
    have h1 : 0 < (encodeSigned (lat - plat)).length :=
      List.length_pos.mpr (encodeSigned_ne_nil _)
    have h2 := ih lat lon
    simp only [polyEncodeRel, List.length_append, List.length_cons]
    omega

/-- `polyline.decode` undoes `polyline.encode`. -/
theorem polyDecode_polyEncode (pts : List (Int × Int)) :
    polyDecode (polyEncode pts) = some pts := by
  have h := le_length_polyEncodeRel pts 0 0
  exact polyDecodeF_polyEncodeRel pts _ 0 0 h

/-! ## Lemmas: `drop_duplicates(subset=["id"], keep="last")` -/

/-- Deduplication only keeps rows of the input. -/
theorem mem_of_mem_dropDupLast {α : Type} :
    ∀ {l : List (Row α)} {a : Row α}, a ∈ dropDupLast l → a ∈ l := by
  intro l
  induction l with
  | nil => intro a h; simp [dropDupLast] at h
  | cons r rest ih =>
    intro a h
    cases hd : rest.any (fun s => s.id == r.id) with
    | true =>
      rw [dropDupLast, if_pos (by simp [hd])] at h
      exact List.mem_cons_of_mem _ (ih h)
    | false =>
      rw [dropDupLast, if_neg (by simp [hd])] at h
      rcases List.mem_cons.mp h with h | h
      · simp [h]
      · exact List.mem_cons_of_mem _ (ih h)

/-- After deduplication no two rows share an id. -/
theorem nodup_dropDupLast_ids {α : Type} (l : List (Row α)) :
    ((dropDupLast l).map Row.id).Nodup := by
  induction l with
  | nil => simp [dropDupLast]
  | cons r rest ih =>
    cases hd : rest.any (fun s => s.id == r.id) with
    | true => rw [dropDupLast, if_pos (by simp [hd])]; exact ih
    | false =>
      rw [dropDupLast, if_neg (by simp [hd])]
      simp only [List.map_cons, List.nodup_cons]
      refine ⟨?_, ih⟩
      intro hmem
      obtain ⟨b, hb, hid⟩ := List.mem_map.mp hmem
      have hbrest := mem_of_mem_dropDupLast hb
      have : rest.any (fun s => s.id == r.id) = true :=
        List.any_eq_true.mpr ⟨b, hbrest, by simp [hid]⟩
      rw [this] at hd
      cases hd

/-- Deduplication commutes with restriction to a single id. -/
theorem filter_dropDupLast {α : Type} (i : Int) :
    ∀ l : List (Row α),
      (dropDupLast l).filter (fun t => t.id == i) =
        dropDupLast (l.filter (fun t => t.id == i)) := by
  intro l
  induction l with
  | nil => simp [dropDupLast]
  | cons r rest ih =>
    by_cases hr : r.id = i
    · have hfil : (r :: rest).filter (fun t => t.id == i) =
          r :: rest.filter (fun t => t.id == i) := by
        simp [List.filter_cons, hr]
      cases hd : rest.any (fun s => s.id == r.id) with
      | true =>
        obtain ⟨s, hs, hsid⟩ := List.any_eq_true.mp hd
        have hsi : s.id = i := by
          have : s.id = r.id := by simpa using hsid
          omega
        have hd2 : (rest.filter (fun t => t.id == i)).any (fun s => s.id == r.id) = true :=
          List.any_eq_true.mpr ⟨s, List.mem_filter.mpr ⟨hs, by simp [hsi]⟩, hsid⟩
        rw [dropDupLast, if_pos (by simp [hd]), hfil, dropDupLast, if_pos (by simp [hd2])]
        exact ih
      | false =>
        have hd2 : (rest.filter (fun t => t.id == i)).any (fun s => s.id == r.id) = false := by
          rw [List.any_eq_false]
          intro s hs
          have hsrest := List.mem_filter.mp hs
          intro hcon
          have : rest.any (fun s => s.id == r.id) = true :=
            List.any_eq_true.mpr ⟨s, hsrest.1, hcon⟩
          rw [this] at hd
          cases hd
        rw [dropDupLast, if_neg (by simp [hd]), hfil, dropDupLast, if_neg (by simp [hd2])]
        simp only [List.filter_cons, show (r.id == i) = true by simp [hr], if_pos trivial]
        rw [ih]
    · have hfil : (r :: rest).filter (fun t => t.id == i) =
          rest.filter (fun t => t.id == i) := by
        simp [List.filter_cons, hr]
      cases hd : rest.any (fun s => s.id == r.id) with
      | true =>
        rw [dropDupLast, if_pos (by simp [hd]), hfil]
        exact ih
      | false =>
        rw [dropDupLast, if_neg (by simp [hd]), hfil]
        rw [← ih]
        simp [List.filter_cons, hr]

/-- Deduplicating a run of same-id rows closed by `s` leaves exactly `s`. -/
theorem dropDupLast_all_id {α : Type} (s : Row α) :
    ∀ xs : List (Row α), (∀ x ∈ xs, x.id = s.id) → dropDupLast (xs ++ [s]) = [s] := by
  intro xs
  induction xs with
  | nil => intro _; simp [dropDupLast]
  | cons x xs ih =>
    intro h
    have hx : x.id = s.id := h x (List.mem_cons_self x xs)
    have hany : (xs ++ [s]).any (fun t => t.id == x.id) = true :=
      List.any_eq_true.mpr ⟨s, by simp, by simp [hx]⟩
    rw [List.cons_append, dropDupLast, if_pos (by simp [hany])]
    exact ih (fun y hy => h y (List.mem_cons_of_mem _ hy))

/-- Every id occurring in the input still occurs after deduplication. -/
theorem exists_id_dropDupLast {α : Type} :
    ∀ (l : List (Row α)) (a : Row α), a ∈ l → ∃ b ∈ dropDupLast l, b.id = a.id := by
  intro l
  induction l with
  | nil => intro a h; cases h
  | cons r rest ih =>
    intro a ha
    cases hd : rest.any (fun s => s.id == r.id) with
    | true =>
      have hstep : ∃ c ∈ rest, c.id = a.id := by
        rcases List.mem_cons.mp ha with h | h
        · obtain ⟨s, hs, hsid⟩ := List.any_eq_true.mp hd
          refine ⟨s, hs, ?_⟩
          have : s.id = r.id := by simpa using hsid
          rw [this, h]
        · exact ⟨a, h, rfl⟩
      obtain ⟨c, hc, hcid⟩ := hstep
      obtain ⟨b, hb, hbid⟩ := ih c hc
      refine ⟨b, ?_, hbid.trans hcid⟩
      rw [dropDupLast, if_pos (by simp [hd])]
      exact hb
    | false =>
      rcases List.mem_cons.mp ha with h | h
      · refine ⟨r, ?_, by rw [h]⟩
        rw [dropDupLast, if_neg (by simp [hd])]
        exact List.mem_cons_self r _
      · obtain ⟨b, hb, hbid⟩ := ih a h
        refine ⟨b, ?_, hbid⟩
        rw [dropDupLast, if_neg (by simp [hd])]
        exact List.mem_cons_of_mem _ hb

/-! ## The claims -/

/-- C1: when an id is present both in the existing frame and in the newly
fetched frame, the merged frame contains exactly one record with that id,
namely the newly fetched one, and no two records of the merged frame share
an id. -/
theorem c1_merge_dedup_newest_wins {α : Type} (existing newGdf : Frame α) (i : Int) (s : Row α)
    (hId : existing.hasId = true)
    (hex : ∃ r ∈ existing.rows, r.id = i)
    (hnew : newGdf.rows.filter (fun t => t.id == i) = [s]) :
    (mergeBlock existing newGdf).rows.filter (fun t => t.id == i) = [s] ∧
    ((mergeBlock existing newGdf).rows.map Row.id).Nodup := by
  obtain ⟨r, hr, hrid⟩ := hex
  have hne : existing.rows.isEmpty = false := by
    cases h : existing.rows with
    | nil => rw [h] at hr; cases hr
    | cons a l => rfl
  have hrows : (mergeBlock existing newGdf).rows =
      dropDupLast (existing.rows ++ newGdf.rows) := by
    simp [mergeBlock, hne, hId]
  have hs : s.id = i := by
    have hmem : s ∈ newGdf.rows.filter (fun t => t.id == i) := by
      rw [hnew]; exact List.mem_singleton.mpr rfl
    simpa using (List.mem_filter.mp hmem).2
  constructor
  · rw [hrows, filter_dropDupLast, List.filter_append, hnew]
    apply dropDupLast_all_id
    intro x hx
    have hxi : x.id = i := by simpa using (List.mem_filter.mp hx).2
    rw [hxi, hs]
  · rw [hrows]
    exact nodup_dropDupLast_ids _

/-- Witness for C1 at a concrete overlap. -/
theorem c1_witness :
    (mergeBlock (⟨true, false, [⟨1, none, "old"⟩]⟩ : Frame String)
        ⟨true, false, [⟨1, none, "new"⟩, ⟨2, none, "other"⟩]⟩).rows.filter
        (fun t => t.id == 1) = [⟨1, none, "new"⟩] ∧
    ((mergeBlock (⟨true, false, [⟨1, none, "old"⟩]⟩ : Frame String)
        ⟨true, false, [⟨1, none, "new"⟩, ⟨2, none, "other"⟩]⟩).rows.map Row.id).Nodup :=
  c1_merge_dedup_newest_wins _ _ 1 _ rfl ⟨⟨1, none, "old"⟩, by simp, rfl⟩ (by decide)

/-- C2: the incremental cutoff is unset when no stored rows exist, and
otherwise equals the maximum stored date (epoch seconds) minus 86400. -/
theorem c2_incremental_cutoff {α : Type} (disk : Option (Option (Frame α))) (m : Int) :
    ((load_existing_geojson disk).rows = [] → afterTs (load_existing_geojson disk) = none) ∧
    ((load_existing_geojson disk).hasDate = true →
      listMax ((load_existing_geojson disk).rows.filterMap Row.date) = some m →
      afterTs (load_existing_geojson disk) = some (m - 86400)) := by
  constructor
  · intro h
    simp [afterTs, h]
  · intro hd hm
    have hne : (load_existing_geojson disk).rows ≠ [] := by
      intro h
      rw [h] at hm
      simp [listMax] at hm
    have hni : (load_existing_geojson disk).rows.isEmpty = false := by
      simpa [List.isEmpty_iff] using hne
    simp [afterTs, hni, hd, hm]

/-- Witness for C2 at a concrete two-row store. -/
theorem c2_witness :
    afterTs (load_existing_geojson (some (some (⟨true, true,
        [⟨1, some 1704153600, "a"⟩, ⟨2, some 1704240000, "b"⟩]⟩ : Frame String)))) =
      some (1704240000 - 86400) :=
  (c2_incremental_cutoff _ 1704240000).2 rfl (by decide)

/-- C3: the pagination loop concatenates all full pages before the first
stopping page (one that is empty or shorter than `perPage`), appends that
page iff it is non-empty, and stops there. -/
theorem c3_pagination_stop {α : Type} (perPage : Nat) (pages : List (List α)) (k : Nat)
    (hk : k < pages.length)
    (hfull : ∀ j, j < k → pages.getD j [] ≠ [] ∧ ¬ (pages.getD j []).length < perPage)
    (hstop : pages.getD k [] = [] ∨ (pages.getD k []).length < perPage) :
    fetchLoop perPage pages =
      (pages.take k).flatten ++
        (if (pages.getD k []).isEmpty then [] else pages.getD k []) := by
  induction pages generalizing k with
  | nil => simp at hk
  | cons p rest ih =>
    cases k with
    | zero =>
      simp only [List.getD_cons_zero] at hstop ⊢
      by_cases hp : p = []
      · subst hp
        simp [fetchLoop]
      · have hpe : p.isEmpty = false := by simpa [List.isEmpty_iff] using hp
        have hshort : p.length < perPage := hstop.resolve_left hp
        simp [fetchLoop, hpe, hshort]
    | succ k =>
      have h0 := hfull 0 (Nat.succ_pos k)
      simp only [List.getD_cons_zero] at h0
      have hstep : fetchLoop perPage (p :: rest) = p ++ fetchLoop perPage rest := by
        simp [fetchLoop, List.isEmpty_iff, h0.1, h0.2]
      have hk2 : k < rest.length := by simpa using hk
      have hfull2 : ∀ j, j < k → rest.getD j [] ≠ [] ∧ ¬ (rest.getD j []).length < perPage := by
        intro j hj
        simpa [List.getD_cons_succ] using hfull (j + 1) (by omega)
      have hstop2 : rest.getD k [] = [] ∨ (rest.getD k []).length < perPage := by
        simpa [List.getD_cons_succ] using hstop
      rw [hstep, ih k hk2 hfull2 hstop2]
      simp [List.getD_cons_succ, List.take_succ_cons, List.append_assoc]

/-- Witness for C3: one full page of two, then a short page. -/
theorem c3_witness :
    fetchLoop 2 [[1, 2], [3]] =
      (([[1, 2], [3]] : List (List Nat)).take 1).flatten ++
        (if (([[1, 2], [3]] : List (List Nat)).getD 1 []).isEmpty then []
         else ([[1, 2], [3]] : List (List Nat)).getD 1 []) :=
  c3_pagination_stop 2 [[1, 2], [3]] 1 (by decide)
    (fun j hj => by interval_cases j; simp) (by simp)

/-- C4 (code evaluated at the failing input): a batch in which one activity
carries a `map` and another lacks the key makes `build_geodataframe` raise
`AttributeError` — the `NaN` filling the absent cell has no `.get` — instead
of silently excluding the record as the claim states. -/
theorem c4_mixed_map_presence_raises :
    build_geodataframe
        [⟨1, some "2024-01-01", some (some (polyEncode [(0, 0), (100, 100)]))⟩,
         ⟨2, some "2024-01-02", none⟩] =
      Except.error "AttributeError: float object has no attribute get" := rfl

/-- C5: every id present in a stored frame that has an `id` column is still
present after the merge. -/
theorem c5_no_deletion {α : Type} (existing newGdf : Frame α) (r : Row α)
    (hId : existing.hasId = true) (hr : r ∈ existing.rows) :
    ∃ b ∈ (mergeBlock existing newGdf).rows, b.id = r.id := by
  have hne : existing.rows.isEmpty = false := by
    cases h : existing.rows with
    | nil => rw [h] at hr; cases hr
    | cons a l => rfl
  have hrows : (mergeBlock existing newGdf).rows =
      dropDupLast (existing.rows ++ newGdf.rows) := by
    simp [mergeBlock, hne, hId]
  rw [hrows]
  exact exists_id_dropDupLast _ r (List.mem_append_left _ hr)

/-- Witness for C5: a stored id absent from the fetch survives the merge. -/
theorem c5_witness :
    ∃ b ∈ (mergeBlock (⟨true, false, [⟨1, none, "kept"⟩]⟩ : Frame String)
        ⟨true, false, [⟨2, none, "fresh"⟩]⟩).rows, b.id = (⟨1, none, "kept"⟩ : Row String).id :=
  c5_no_deletion _ _ _ rfl (by simp)

/-- C6: an empty combined frame produces only the no-op message (no file
effect at all); a non-empty one produces writes of both output files. -/
theorem c6_write_or_skip {α : Type} (combined : Frame α) :
    (combined.rows = [] → writeBlock combined = [Effect.info "[info] nothing to update"]) ∧
    (combined.rows ≠ [] →
      Effect.writeFile GEOJSON_PATH ∈ writeBlock combined ∧
      Effect.writeFile SHP_PATH ∈ writeBlock combined) := by
  constructor
  · intro h
    simp [writeBlock, h]
  · intro h
    have hni : combined.rows.isEmpty = false := by simpa [List.isEmpty_iff] using h
    simp [writeBlock, hni]

/-- Witness for C6 on an empty and a one-row frame. -/
theorem c6_witness :
    writeBlock (⟨true, false, []⟩ : Frame String) = [Effect.info "[info] nothing to update"] ∧
    Effect.writeFile GEOJSON_PATH ∈ writeBlock (⟨true, false, [⟨1, none, "x"⟩]⟩ : Frame String) ∧
    Effect.writeFile SHP_PATH ∈ writeBlock (⟨true, false, [⟨1, none, "x"⟩]⟩ : Frame String) :=
  ⟨(c6_write_or_skip _).1 rfl, (c6_write_or_skip _).2 (by simp)⟩

/-- C7: an absent or unreadable store loads as the empty frame, and then no
incremental cutoff is computed. -/
theorem c7_unreadable_treated_empty {α : Type} (disk : Option (Option (Frame α)))
    (h : disk = none ∨ disk = some none) :
    load_existing_geojson disk = emptyFrame ∧ afterTs (load_existing_geojson disk) = none := by
  rcases h with h | h
  · subst h
    exact ⟨rfl, rfl⟩
  · subst h
    exact ⟨rfl, rfl⟩

/-- Witness for C7 at an absent store. -/
theorem c7_witness :
    load_existing_geojson (none : Option (Option (Frame Unit))) = emptyFrame ∧
    afterTs (load_existing_geojson (none : Option (Option (Frame Unit)))) = none :=
  c7_unreadable_treated_empty none (Or.inl rfl)

/-- C8 counterexample: on an unparsable `start_date`, `year` and `month` are
null but the derived `date` cell is the non-null string `"NaT"` — the claim
that all three derived fields are null is false. -/
theorem c8_counterexample :
    (some "not-a-date").bind parseUTCDate = none ∧
    (expandDates (some "not-a-date")).date = some "NaT" ∧
    (expandDates (some "not-a-date")).date ≠ none ∧
    (expandDates (some "not-a-date")).year = none ∧
    (expandDates (some "not-a-date")).month = none := by
  refine ⟨rfl, rfl, ?_, rfl, rfl⟩
  decide

/-- C8 (amended): when `start_date` fails UTC-aware parsing, `year` and
`month` are null, and the `date` cell is the literal string `"NaT"`. -/
theorem c8_amended_null_propagation (sd : Option String)
    (h : sd.bind parseUTCDate = none) :
    (expandDates sd).date = some "NaT" ∧
    (expandDates sd).year = none ∧
    (expandDates sd).month = none := by
  simp [expandDates, h]

/-- Witness for the amended C8. -/
theorem c8_witness :
    (expandDates (some "garbage")).date = some "NaT" ∧
    (expandDates (some "garbage")).year = none ∧
    (expandDates (some "garbage")).month = none :=
  c8_amended_null_propagation _ rfl

/-- C9: a string in the image of the 5-digit polyline encoder with at least
two points decodes to the exact point list that re-encodes to the original
string, and `decode_summary_polyline` swaps the decoded (lat, lon) pairs to
(lon, lat) for the line geometry. -/
theorem c9_decode_encode_roundtrip (s : List Char)
    (h : ∃ pts : List (Int × Int), polyEncode pts = s ∧ 2 ≤ pts.length) :
    ∃ pts : List (Int × Int),
      polyDecode s = some pts ∧ polyEncode pts = s ∧
      decode_summary_polyline (MapCell.dict (some s)) =
        Except.ok (some (pts.map (fun q => (q.2, q.1)))) := by
  obtain ⟨pts, henc, hlen⟩ := h
  subst henc
  refine ⟨pts, polyDecode_polyEncode pts, rfl, ?_⟩
  have hle : pts.length ≤ (polyEncode pts).length := le_length_polyEncodeRel pts 0 0
  have h2 : 2 ≤ (polyEncode pts).length := le_trans hlen hle
  have hne : (polyEncode pts).isEmpty = false := by
    cases hp : polyEncode pts with
    | nil =>
      rw [hp] at h2
      simp at h2
    | cons a l => rfl
  have hnl : ¬ pts.length < 2 := by omega
  simp [decode_summary_polyline, hne, polyDecode_polyEncode pts, hnl]

/-- Witness for C9 on a concrete two-point polyline. -/
theorem c9_witness :
    ∃ pts : List (Int × Int),
      polyDecode ("??gEgE".data) = some pts ∧
      polyEncode pts = "??gEgE".data ∧
      decode_summary_polyline (MapCell.dict (some ("??gEgE".data))) =
        Except.ok (some (pts.map (fun q => (q.2, q.1)))) :=
  c9_decode_encode_roundtrip _ ⟨[(0, 0), (100, 100)], by decide, by decide⟩

/-- C10: a non-empty stored frame without an `id` column is discarded whole:
the combined frame is exactly the newly fetched one, with no deduplication
applied to it. -/
theorem c10_missing_id_column_discards {α : Type} (existing newGdf : Frame α)
    (hne : existing.rows ≠ []) (hId : existing.hasId = false) :
    mergeBlock existing newGdf = newGdf := by
  have h : existing.rows.isEmpty = false := by simpa [List.isEmpty_iff] using hne
  simp [mergeBlock, h, hId]

/-- Witness for C10: the duplicate ids of the fetch survive untouched. -/
theorem c10_witness :
    mergeBlock (⟨false, false, [⟨1, none, "lost"⟩]⟩ : Frame String)
        ⟨true, false, [⟨2, none, "a"⟩, ⟨2, none, "b"⟩]⟩ =
      ⟨true, false, [⟨2, none, "a"⟩, ⟨2, none, "b"⟩]⟩ :=
  c10_missing_id_column_discards _ _ (by simp) rfl

end Strava
